import Mathlib

/-!
Verification development for the emergency-vehicle traffic-light controller
(src/app.py).

The program has two cores:

1. a fuzzy-inference engine (src/app.py lines 20-56): membership functions,
   nine rules and the helper `get_fuzzy_green`, which delegates the Mamdani
   inference and centroid defuzzification to an external fuzzy-logic library;
2. a preemption routine `perform_preemption` (lines 59-84) and the detection
   scan in `run` (lines 89-113) driving an external traffic simulator.

Membership breakpoints, universes and the rule table are transcribed from the
source.  The inference pipeline itself (fuzzification, rule firing by `min`,
aggregation by `max`, discretized centroid, input clamping, and the
zero-denominator error) executes inside the external library, so it is
modelled from the spec's algorithm (spec section 4.1): the output universe is
discretized at the source granularity (integers 0..60) and the centroid is
the area-weighted mean over those points.  All arithmetic is exact (`ℚ`),
abstracting the floating point of the original.

The simulator is modelled as a collaborator that records commands: a
preemption session produces the list of signal commands it issues plus the
simulated step at which its clearance poll succeeds.  Vehicles are their
identifier strings; the emergency category test is the substring test the
source uses.
-/

/-- Triangular membership function with breakpoints `a ≤ b ≤ c`, as sampled by
`fuzz.trimf`: value `1` at the apex `b`, linear on `(a,b)` and `(b,c)`, `0`
elsewhere. -/
def trimf (a b c x : ℚ) : ℚ :=
  if x = b then 1
  else if a < x ∧ x < b then (x - a) / (b - a)
  else if b < x ∧ x < c then (c - x) / (c - b)
  else 0

/-- queue.low = trimf [0, 0, 15] (src/app.py line 24). -/
def queue_low (x : ℚ) : ℚ := trimf 0 0 15 x

/-- queue.medium = trimf [10, 25, 40] (line 25). -/
def queue_medium (x : ℚ) : ℚ := trimf 10 25 40 x

/-- queue.high = trimf [30, 50, 50] (line 26). -/
def queue_high (x : ℚ) : ℚ := trimf 30 50 50 x

/-- urgency.low = trimf [0, 0, 0.4] (line 28). -/
def urgency_low (x : ℚ) : ℚ := trimf 0 0 (2/5) x

/-- urgency.medium = trimf [0.2, 0.5, 0.8] (line 29). -/
def urgency_medium (x : ℚ) : ℚ := trimf (1/5) (1/2) (4/5) x

/-- urgency.high = trimf [0.6, 1.0, 1.0] (line 30). -/
def urgency_high (x : ℚ) : ℚ := trimf (3/5) 1 1 x

/-- green_time.short = trimf [0, 10, 20] (line 32). -/
def green_short (x : ℚ) : ℚ := trimf 0 10 20 x

/-- green_time.medium = trimf [15, 25, 35] (line 33). -/
def green_medium (x : ℚ) : ℚ := trimf 15 25 35 x

/-- green_time.long = trimf [30, 45, 55] (line 34). -/
def green_long (x : ℚ) : ℚ := trimf 30 45 55 x

/-- green_time.very_long = trimf [50, 60, 60] (line 35). -/
def green_very_long (x : ℚ) : ℚ := trimf 50 60 60 x

/-- Firing strength of rule1: queue low AND urgency low (line 37). -/
def w1 (q u : ℚ) : ℚ := min (queue_low q) (urgency_low u)

/-- Firing strength of rule2: queue low AND urgency medium (line 38). -/
def w2 (q u : ℚ) : ℚ := min (queue_low q) (urgency_medium u)

/-- Firing strength of rule3: queue low AND urgency high (line 39). -/
def w3 (q u : ℚ) : ℚ := min (queue_low q) (urgency_high u)

/-- Firing strength of rule4: queue medium AND urgency low (line 40). -/
def w4 (q u : ℚ) : ℚ := min (queue_medium q) (urgency_low u)

/-- Firing strength of rule5: queue medium AND urgency medium (line 41). -/
def w5 (q u : ℚ) : ℚ := min (queue_medium q) (urgency_medium u)

/-- Firing strength of rule6: queue medium AND urgency high (line 42). -/
def w6 (q u : ℚ) : ℚ := min (queue_medium q) (urgency_high u)

/-- Firing strength of rule7: queue high AND urgency low (line 43). -/
def w7 (q u : ℚ) : ℚ := min (queue_high q) (urgency_low u)

/-- Firing strength of rule8: queue high AND urgency medium (line 44). -/
def w8 (q u : ℚ) : ℚ := min (queue_high q) (urgency_medium u)

/-- Firing strength of rule9: queue high AND urgency high (line 45). -/
def w9 (q u : ℚ) : ℚ := min (queue_high q) (urgency_high u)

/-- Modelled from the spec: aggregated output membership at point `z` of the
green-time universe — each rule's consequent is clipped (`min`) at the rule's
firing strength and the clipped curves are combined pointwise by `max`
(spec section 4.1 steps 2-3; the aggregation runs inside the external fuzzy
library built from rules rule1..rule9 of src/app.py lines 37-45). -/
def aggregated (q u z : ℚ) : ℚ :=
  max (min (w1 q u) (green_short z))
  (max (min (w2 q u) (green_medium z))
  (max (min (w3 q u) (green_long z))
  (max (min (w4 q u) (green_medium z))
  (max (min (w5 q u) (green_long z))
  (max (min (w6 q u) (green_very_long z))
  (max (min (w7 q u) (green_long z))
  (max (min (w8 q u) (green_very_long z))
  (min (w9 q u) (green_very_long z)))))))))

/-- Sum of the aggregated memberships over the discretized output universe
0,1,...,60 (the defuzzification denominator). -/
def muSum (y : ℕ → ℚ) : ℚ := ∑ k ∈ Finset.range 61, y k

/-- Area-weighted sum over the discretized output universe (the
defuzzification numerator). -/
def xmuSum (y : ℕ → ℚ) : ℚ := ∑ k ∈ Finset.range 61, (k : ℚ) * y k

/-- Modelled from the spec: centroid defuzzification over the discretized
output universe, `Σ(x·μ(x)) / Σ(μ(x))` (spec section 4.1 step 4; the
computation runs inside the external fuzzy library). -/
def centroid61 (y : ℕ → ℚ) : ℚ := xmuSum y / muSum y

/-- Modelled from the spec: inputs outside the declared universe are clamped
to the nearest boundary before fuzzification (spec section 4.1 step 1; the
clamping happens inside the external fuzzy library when an input is set). -/
def clip (lo hi x : ℚ) : ℚ := if hi < x then hi else if x < lo then lo else x

/-- Embedding of `get_fuzzy_green` (src/app.py lines 52-56): set the crisp
inputs, run the Mamdani inference and return the defuzzified green time.
`none` models the error the computation reports when no rule fires and the
defuzzification denominator over the sampled universe is zero (spec
section 4.1 step 5). -/
def get_fuzzy_green (queue_len urgency_level : ℚ) : Option ℚ :=
  let qc := clip 0 50 queue_len
  let uc := clip 0 1 urgency_level
  let y : ℕ → ℚ := fun k => aggregated qc uc (k : ℚ)
  if muSum y = 0 then none else some (centroid61 y)

/-- The recommended green duration for inputs on which the inference
succeeds (the payload of `get_fuzzy_green`). -/
def greenValue (queue_len urgency_level : ℚ) : ℚ :=
  centroid61 (fun k => aggregated (clip 0 50 queue_len) (clip 0 1 urgency_level) (k : ℚ))

/-- Green duration with the (provably unreachable) inference error defaulted
to 0, used to state monotonicity over sample grids. -/
def greenD (queue_len urgency_level : ℚ) : ℚ :=
  (get_fuzzy_green queue_len urgency_level).getD 0


/-!
Exact fraction arithmetic used to evaluate the engine on concrete inputs.
`ℚ` arithmetic does not reduce inside `decide`, so concrete engine values are
computed on unreduced natural-number fractions (every quantity the engine
manipulates on the grids of interest is nonnegative) and transported to `ℚ`
through the homomorphism lemmas below.  A `Frac` with positive denominator
`d` denotes the rational `n / d`.
-/

/-- Unreduced nonnegative fraction. -/
structure Frac where
  n : ℕ
  d : ℕ
deriving DecidableEq, Repr

/-- The rational number a fraction denotes. -/
def Frac.toQ (p : Frac) : ℚ := (p.n : ℚ) / (p.d : ℚ)

/-- Fraction addition without normalization. -/
def Frac.add (a b : Frac) : Frac := ⟨a.n * b.d + b.n * a.d, a.d * b.d⟩

/-- Fraction subtraction without normalization (truncated; exact whenever the
subtrahend does not exceed the minuend). -/
def Frac.sub (a b : Frac) : Frac := ⟨a.n * b.d - b.n * a.d, a.d * b.d⟩

/-- Fraction multiplication without normalization. -/
def Frac.mul (a b : Frac) : Frac := ⟨a.n * b.n, a.d * b.d⟩

/-- Fraction division; division by a zero fraction yields the zero fraction,
matching `ℚ` division. -/
def Frac.div (a b : Frac) : Frac :=
  if 0 < b.n then ⟨a.n * b.d, a.d * b.n⟩ else ⟨0, 1⟩

/-- Equality test by cross multiplication (valid for positive denominators). -/
def Frac.beq (a b : Frac) : Bool := decide (a.n * b.d = b.n * a.d)

/-- Strict order test by cross multiplication (valid for positive
denominators). -/
def Frac.blt (a b : Frac) : Bool := decide (a.n * b.d < b.n * a.d)

/-- Non-strict order test by cross multiplication (valid for positive
denominators). -/
def Frac.ble (a b : Frac) : Bool := decide (a.n * b.d ≤ b.n * a.d)

/-- Minimum of two fractions, mirroring `min` on `ℚ`. -/
def Frac.minF (a b : Frac) : Frac := if Frac.ble a b then a else b

/-- Maximum of two fractions, mirroring `max` on `ℚ`. -/
def Frac.maxF (a b : Frac) : Frac := if Frac.ble a b then b else a

theorem Frac.add_pos_den {a b : Frac} (ha : 0 < a.d) (hb : 0 < b.d) :
    0 < (Frac.add a b).d := Nat.mul_pos ha hb

theorem Frac.sub_pos_den {a b : Frac} (ha : 0 < a.d) (hb : 0 < b.d) :
    0 < (Frac.sub a b).d := Nat.mul_pos ha hb

theorem Frac.mul_pos_den {a b : Frac} (ha : 0 < a.d) (hb : 0 < b.d) :
    0 < (Frac.mul a b).d := Nat.mul_pos ha hb

theorem Frac.div_pos_den {a b : Frac} (ha : 0 < a.d) :
    0 < (Frac.div a b).d := by
  unfold Frac.div
  split_ifs with h1
  · exact Nat.mul_pos ha h1
  · norm_num

theorem Frac.minF_pos_den {a b : Frac} (ha : 0 < a.d) (hb : 0 < b.d) :
    0 < (Frac.minF a b).d := by
  unfold Frac.minF; split_ifs <;> assumption

theorem Frac.maxF_pos_den {a b : Frac} (ha : 0 < a.d) (hb : 0 < b.d) :
    0 < (Frac.maxF a b).d := by
  unfold Frac.maxF; split_ifs <;> assumption

theorem Frac.den_cast_ne {a : Frac} (ha : 0 < a.d) : ((a.d : ℚ)) ≠ 0 := by
  exact_mod_cast ha.ne'

theorem Frac.toQ_add {a b : Frac} (ha : 0 < a.d) (hb : 0 < b.d) :
    (Frac.add a b).toQ = a.toQ + b.toQ := by
  have ha' := Frac.den_cast_ne ha
  have hb' := Frac.den_cast_ne hb
  simp only [Frac.add, Frac.toQ]
  push_cast
  field_simp
  try ring

theorem Frac.ble_iff {a b : Frac} (ha : 0 < a.d) (hb : 0 < b.d) :
    Frac.ble a b = true ↔ a.toQ ≤ b.toQ := by
  have haq : (0:ℚ) < a.d := by exact_mod_cast ha
  have hbq : (0:ℚ) < b.d := by exact_mod_cast hb
  rw [Frac.ble, decide_eq_true_iff, Frac.toQ, Frac.toQ, div_le_div_iff₀ haq hbq]
  constructor
  · intro h; exact_mod_cast h
  · intro h; exact_mod_cast h

theorem Frac.blt_iff {a b : Frac} (ha : 0 < a.d) (hb : 0 < b.d) :
    Frac.blt a b = true ↔ a.toQ < b.toQ := by
  have haq : (0:ℚ) < a.d := by exact_mod_cast ha
  have hbq : (0:ℚ) < b.d := by exact_mod_cast hb
  rw [Frac.blt, decide_eq_true_iff, Frac.toQ, Frac.toQ, div_lt_div_iff₀ haq hbq]
  constructor
  · intro h; exact_mod_cast h
  · intro h; exact_mod_cast h

theorem Frac.beq_iff {a b : Frac} (ha : 0 < a.d) (hb : 0 < b.d) :
    Frac.beq a b = true ↔ a.toQ = b.toQ := by
  have ha' := Frac.den_cast_ne ha
  have hb' := Frac.den_cast_ne hb
  rw [Frac.beq, decide_eq_true_iff, Frac.toQ, Frac.toQ, div_eq_div_iff ha' hb']
  constructor
  · intro h; exact_mod_cast h
  · intro h; exact_mod_cast h

theorem Frac.toQ_sub {a b : Frac} (ha : 0 < a.d) (hb : 0 < b.d)
    (hle : b.toQ ≤ a.toQ) : (Frac.sub a b).toQ = a.toQ - b.toQ := by
  have ha' := Frac.den_cast_ne ha
  have hb' := Frac.den_cast_ne hb
  have haq : (0:ℚ) < a.d := by exact_mod_cast ha
  have hbq : (0:ℚ) < b.d := by exact_mod_cast hb
  have hcross : b.n * a.d ≤ a.n * b.d := by
    have := (div_le_div_iff₀ hbq haq).mp hle
    exact_mod_cast this
  simp only [Frac.sub, Frac.toQ]
  rw [Nat.cast_sub hcross]
  push_cast
  field_simp
  try ring

theorem Frac.toQ_mul {a b : Frac} (ha : 0 < a.d) (hb : 0 < b.d) :
    (Frac.mul a b).toQ = a.toQ * b.toQ := by
  have ha' := Frac.den_cast_ne ha
  have hb' := Frac.den_cast_ne hb
  simp only [Frac.mul, Frac.toQ]
  push_cast
  field_simp

theorem Frac.toQ_div {a b : Frac} (ha : 0 < a.d) (hb : 0 < b.d) :
    (Frac.div a b).toQ = a.toQ / b.toQ := by
  have ha' := Frac.den_cast_ne ha
  have hb' := Frac.den_cast_ne hb
  unfold Frac.div
  split_ifs with h1
  · have hbn : ((b.n : ℚ)) ≠ 0 := by exact_mod_cast h1.ne'
    simp only [Frac.toQ]
    push_cast
    field_simp
    try ring
  · have hbn : b.n = 0 := by omega
    simp [Frac.toQ, hbn]

theorem Frac.toQ_minF {a b : Frac} (ha : 0 < a.d) (hb : 0 < b.d) :
    (Frac.minF a b).toQ = min a.toQ b.toQ := by
  rw [Frac.minF, min_def]
  by_cases h : Frac.ble a b = true
  · rw [if_pos h, if_pos ((Frac.ble_iff ha hb).mp h)]
  · rw [if_neg h, if_neg (by rw [← Frac.ble_iff ha hb]; simpa using h)]

theorem Frac.toQ_maxF {a b : Frac} (ha : 0 < a.d) (hb : 0 < b.d) :
    (Frac.maxF a b).toQ = max a.toQ b.toQ := by
  rw [Frac.maxF, max_def]
  by_cases h : Frac.ble a b = true
  · rw [if_pos h, if_pos ((Frac.ble_iff ha hb).mp h)]
  · rw [if_neg h, if_neg (by rw [← Frac.ble_iff ha hb]; simpa using h)]

/-- A fraction is a faithful representative of a rational: positive
denominator and correct denotation. -/
def Frac.good (p : Frac) (x : ℚ) : Prop := 0 < p.d ∧ p.toQ = x

theorem Frac.good_mk {n d : ℕ} (h : 0 < d) : Frac.good ⟨n, d⟩ ((n : ℚ) / (d : ℚ)) :=
  ⟨h, rfl⟩

theorem Frac.good_nat (k : ℕ) : Frac.good ⟨k, 1⟩ (k : ℚ) :=
  ⟨one_pos, by simp [Frac.toQ]⟩

theorem Frac.good_congr {p : Frac} {x y : ℚ} (h : p.good x) (e : x = y) : p.good y :=
  e ▸ h

theorem Frac.good_lit (n : ℕ) {x : ℚ} (e : (n : ℚ) = x) : Frac.good ⟨n, 1⟩ x :=
  Frac.good_congr (Frac.good_nat n) e

theorem Frac.good_frac (n d : ℕ) (hd : 0 < d) {x : ℚ} (e : (n : ℚ) / (d : ℚ) = x) :
    Frac.good ⟨n, d⟩ x :=
  Frac.good_congr (Frac.good_mk hd) e

theorem Frac.good_add {a b : Frac} {x y : ℚ} (ha : a.good x) (hb : b.good y) :
    (Frac.add a b).good (x + y) :=
  ⟨Frac.add_pos_den ha.1 hb.1, by rw [Frac.toQ_add ha.1 hb.1, ha.2, hb.2]⟩

theorem Frac.good_sub {a b : Frac} {x y : ℚ} (ha : a.good x) (hb : b.good y)
    (hle : y ≤ x) : (Frac.sub a b).good (x - y) :=
  ⟨Frac.sub_pos_den ha.1 hb.1, by
    rw [Frac.toQ_sub ha.1 hb.1 (by rw [ha.2, hb.2]; exact hle), ha.2, hb.2]⟩

theorem Frac.good_mul {a b : Frac} {x y : ℚ} (ha : a.good x) (hb : b.good y) :
    (Frac.mul a b).good (x * y) :=
  ⟨Frac.mul_pos_den ha.1 hb.1, by rw [Frac.toQ_mul ha.1 hb.1, ha.2, hb.2]⟩

theorem Frac.good_div {a b : Frac} {x y : ℚ} (ha : a.good x) (hb : b.good y) :
    (Frac.div a b).good (x / y) :=
  ⟨Frac.div_pos_den ha.1, by rw [Frac.toQ_div ha.1 hb.1, ha.2, hb.2]⟩

theorem Frac.good_minF {a b : Frac} {x y : ℚ} (ha : a.good x) (hb : b.good y) :
    (Frac.minF a b).good (min x y) :=
  ⟨Frac.minF_pos_den ha.1 hb.1, by rw [Frac.toQ_minF ha.1 hb.1, ha.2, hb.2]⟩

theorem Frac.good_maxF {a b : Frac} {x y : ℚ} (ha : a.good x) (hb : b.good y) :
    (Frac.maxF a b).good (max x y) :=
  ⟨Frac.maxF_pos_den ha.1 hb.1, by rw [Frac.toQ_maxF ha.1 hb.1, ha.2, hb.2]⟩

theorem Frac.good_beq_iff {a b : Frac} {x y : ℚ} (ha : a.good x) (hb : b.good y) :
    Frac.beq a b = true ↔ x = y := by
  rw [Frac.beq_iff ha.1 hb.1, ha.2, hb.2]

theorem Frac.good_blt_iff {a b : Frac} {x y : ℚ} (ha : a.good x) (hb : b.good y) :
    Frac.blt a b = true ↔ x < y := by
  rw [Frac.blt_iff ha.1 hb.1, ha.2, hb.2]

/-- Fraction mirror of `trimf`. -/
def trimfF (a b c x : Frac) : Frac :=
  if Frac.beq x b then ⟨1, 1⟩
  else if Frac.blt a x && Frac.blt x b then Frac.div (Frac.sub x a) (Frac.sub b a)
  else if Frac.blt b x && Frac.blt x c then Frac.div (Frac.sub c x) (Frac.sub c b)
  else ⟨0, 1⟩

theorem trimfF_good {a b c x : Frac} {A B C X : ℚ}
    (ha : a.good A) (hb : b.good B) (hc : c.good C) (hx : x.good X) :
    (trimfF a b c x).good (trimf A B C X) := by
  unfold trimfF trimf
  by_cases h1 : X = B
  · rw [if_pos ((Frac.good_beq_iff hx hb).mpr h1), if_pos h1]
    exact Frac.good_lit 1 (by norm_num)
  · rw [if_neg (by rw [Frac.good_beq_iff hx hb]; exact h1), if_neg h1]
    by_cases h2 : A < X ∧ X < B
    · rw [if_pos (by rw [Bool.and_eq_true, Frac.good_blt_iff ha hx,
        Frac.good_blt_iff hx hb]; exact h2), if_pos h2]
      exact Frac.good_div (Frac.good_sub hx ha h2.1.le)
        (Frac.good_sub hb ha (h2.1.trans h2.2).le)
    · rw [if_neg (by rw [Bool.and_eq_true, Frac.good_blt_iff ha hx,
        Frac.good_blt_iff hx hb]; exact h2), if_neg h2]
      by_cases h3 : B < X ∧ X < C
      · rw [if_pos (by rw [Bool.and_eq_true, Frac.good_blt_iff hb hx,
          Frac.good_blt_iff hx hc]; exact h3), if_pos h3]
        exact Frac.good_div (Frac.good_sub hc hx h3.2.le)
          (Frac.good_sub hc hb (h3.1.trans h3.2).le)
      · rw [if_neg (by rw [Bool.and_eq_true, Frac.good_blt_iff hb hx,
          Frac.good_blt_iff hx hc]; exact h3), if_neg h3]
        exact Frac.good_lit 0 (by norm_num)

/-- Fraction mirror of `queue_low`. -/
def queue_lowF (x : Frac) : Frac := trimfF ⟨0, 1⟩ ⟨0, 1⟩ ⟨15, 1⟩ x

/-- Fraction mirror of `queue_medium`. -/
def queue_mediumF (x : Frac) : Frac := trimfF ⟨10, 1⟩ ⟨25, 1⟩ ⟨40, 1⟩ x

/-- Fraction mirror of `queue_high`. -/
def queue_highF (x : Frac) : Frac := trimfF ⟨30, 1⟩ ⟨50, 1⟩ ⟨50, 1⟩ x

/-- Fraction mirror of `urgency_low`. -/
def urgency_lowF (x : Frac) : Frac := trimfF ⟨0, 1⟩ ⟨0, 1⟩ ⟨2, 5⟩ x

/-- Fraction mirror of `urgency_medium`. -/
def urgency_mediumF (x : Frac) : Frac := trimfF ⟨1, 5⟩ ⟨1, 2⟩ ⟨4, 5⟩ x

/-- Fraction mirror of `urgency_high`. -/
def urgency_highF (x : Frac) : Frac := trimfF ⟨3, 5⟩ ⟨1, 1⟩ ⟨1, 1⟩ x

/-- Fraction mirror of `green_short`. -/
def green_shortF (x : Frac) : Frac := trimfF ⟨0, 1⟩ ⟨10, 1⟩ ⟨20, 1⟩ x

/-- Fraction mirror of `green_medium`. -/
def green_mediumF (x : Frac) : Frac := trimfF ⟨15, 1⟩ ⟨25, 1⟩ ⟨35, 1⟩ x

/-- Fraction mirror of `green_long`. -/
def green_longF (x : Frac) : Frac := trimfF ⟨30, 1⟩ ⟨45, 1⟩ ⟨55, 1⟩ x

/-- Fraction mirror of `green_very_long`. -/
def green_very_longF (x : Frac) : Frac := trimfF ⟨50, 1⟩ ⟨60, 1⟩ ⟨60, 1⟩ x

theorem queue_lowF_good {x : Frac} {X : ℚ} (hx : x.good X) :
    (queue_lowF x).good (queue_low X) := by
  unfold queue_lowF queue_low
  exact trimfF_good (Frac.good_lit 0 (by norm_num)) (Frac.good_lit 0 (by norm_num))
    (Frac.good_lit 15 (by norm_num)) hx

theorem queue_mediumF_good {x : Frac} {X : ℚ} (hx : x.good X) :
    (queue_mediumF x).good (queue_medium X) := by
  unfold queue_mediumF queue_medium
  exact trimfF_good (Frac.good_lit 10 (by norm_num)) (Frac.good_lit 25 (by norm_num))
    (Frac.good_lit 40 (by norm_num)) hx

theorem queue_highF_good {x : Frac} {X : ℚ} (hx : x.good X) :
    (queue_highF x).good (queue_high X) := by
  unfold queue_highF queue_high
  exact trimfF_good (Frac.good_lit 30 (by norm_num)) (Frac.good_lit 50 (by norm_num))
    (Frac.good_lit 50 (by norm_num)) hx

theorem urgency_lowF_good {x : Frac} {X : ℚ} (hx : x.good X) :
    (urgency_lowF x).good (urgency_low X) := by
  unfold urgency_lowF urgency_low
  exact trimfF_good (Frac.good_lit 0 (by norm_num)) (Frac.good_lit 0 (by norm_num))
    (Frac.good_frac 2 5 (by norm_num) (by norm_num)) hx

theorem urgency_mediumF_good {x : Frac} {X : ℚ} (hx : x.good X) :
    (urgency_mediumF x).good (urgency_medium X) := by
  unfold urgency_mediumF urgency_medium
  exact trimfF_good (Frac.good_frac 1 5 (by norm_num) (by norm_num))
    (Frac.good_frac 1 2 (by norm_num) (by norm_num))
    (Frac.good_frac 4 5 (by norm_num) (by norm_num)) hx

theorem urgency_highF_good {x : Frac} {X : ℚ} (hx : x.good X) :
    (urgency_highF x).good (urgency_high X) := by
  unfold urgency_highF urgency_high
  exact trimfF_good (Frac.good_frac 3 5 (by norm_num) (by norm_num))
    (Frac.good_lit 1 (by norm_num)) (Frac.good_lit 1 (by norm_num)) hx

theorem green_shortF_good {x : Frac} {X : ℚ} (hx : x.good X) :
    (green_shortF x).good (green_short X) := by
  unfold green_shortF green_short
  exact trimfF_good (Frac.good_lit 0 (by norm_num)) (Frac.good_lit 10 (by norm_num))
    (Frac.good_lit 20 (by norm_num)) hx

theorem green_mediumF_good {x : Frac} {X : ℚ} (hx : x.good X) :
    (green_mediumF x).good (green_medium X) := by
  unfold green_mediumF green_medium
  exact trimfF_good (Frac.good_lit 15 (by norm_num)) (Frac.good_lit 25 (by norm_num))
    (Frac.good_lit 35 (by norm_num)) hx

theorem green_longF_good {x : Frac} {X : ℚ} (hx : x.good X) :
    (green_longF x).good (green_long X) := by
  unfold green_longF green_long
  exact trimfF_good (Frac.good_lit 30 (by norm_num)) (Frac.good_lit 45 (by norm_num))
    (Frac.good_lit 55 (by norm_num)) hx

theorem green_very_longF_good {x : Frac} {X : ℚ} (hx : x.good X) :
    (green_very_longF x).good (green_very_long X) := by
  unfold green_very_longF green_very_long
  exact trimfF_good (Frac.good_lit 50 (by norm_num)) (Frac.good_lit 60 (by norm_num))
    (Frac.good_lit 60 (by norm_num)) hx

/-- Fraction mirror of `aggregated`. -/
def aggregatedF (q u z : Frac) : Frac :=
  Frac.maxF (Frac.minF (Frac.minF (queue_lowF q) (urgency_lowF u)) (green_shortF z))
  (Frac.maxF (Frac.minF (Frac.minF (queue_lowF q) (urgency_mediumF u)) (green_mediumF z))
  (Frac.maxF (Frac.minF (Frac.minF (queue_lowF q) (urgency_highF u)) (green_longF z))
  (Frac.maxF (Frac.minF (Frac.minF (queue_mediumF q) (urgency_lowF u)) (green_mediumF z))
  (Frac.maxF (Frac.minF (Frac.minF (queue_mediumF q) (urgency_mediumF u)) (green_longF z))
  (Frac.maxF (Frac.minF (Frac.minF (queue_mediumF q) (urgency_highF u)) (green_very_longF z))
  (Frac.maxF (Frac.minF (Frac.minF (queue_highF q) (urgency_lowF u)) (green_longF z))
  (Frac.maxF (Frac.minF (Frac.minF (queue_highF q) (urgency_mediumF u)) (green_very_longF z))
  (Frac.minF (Frac.minF (queue_highF q) (urgency_highF u)) (green_very_longF z)))))))))

theorem aggregatedF_good {q u z : Frac} {Q U Z : ℚ}
    (hq : q.good Q) (hu : u.good U) (hz : z.good Z) :
    (aggregatedF q u z).good (aggregated Q U Z) := by
  unfold aggregatedF aggregated w1 w2 w3 w4 w5 w6 w7 w8 w9
  exact Frac.good_maxF (Frac.good_minF (Frac.good_minF (queue_lowF_good hq) (urgency_lowF_good hu)) (green_shortF_good hz))
    (Frac.good_maxF (Frac.good_minF (Frac.good_minF (queue_lowF_good hq) (urgency_mediumF_good hu)) (green_mediumF_good hz))
    (Frac.good_maxF (Frac.good_minF (Frac.good_minF (queue_lowF_good hq) (urgency_highF_good hu)) (green_longF_good hz))
    (Frac.good_maxF (Frac.good_minF (Frac.good_minF (queue_mediumF_good hq) (urgency_lowF_good hu)) (green_mediumF_good hz))
    (Frac.good_maxF (Frac.good_minF (Frac.good_minF (queue_mediumF_good hq) (urgency_mediumF_good hu)) (green_longF_good hz))
    (Frac.good_maxF (Frac.good_minF (Frac.good_minF (queue_mediumF_good hq) (urgency_highF_good hu)) (green_very_longF_good hz))
    (Frac.good_maxF (Frac.good_minF (Frac.good_minF (queue_highF_good hq) (urgency_lowF_good hu)) (green_longF_good hz))
    (Frac.good_maxF (Frac.good_minF (Frac.good_minF (queue_highF_good hq) (urgency_mediumF_good hu)) (green_very_longF_good hz))
    (Frac.good_minF (Frac.good_minF (queue_highF_good hq) (urgency_highF_good hu)) (green_very_longF_good hz)))))))))

/-- Sum of a list of fractions. -/
def sumFL (l : List Frac) : Frac := l.foldr Frac.add ⟨0, 1⟩

theorem sumFL_good {l : List Frac} {L : List ℚ} (h : List.Forall₂ Frac.good l L) :
    (sumFL l).good L.sum := by
  induction h with
  | nil => exact Frac.good_lit 0 (by norm_num)
  | cons hab htail ih =>
      exact Frac.good_congr (Frac.good_add hab ih) (by rw [List.sum_cons])

theorem forall₂_good_map {y : ℕ → Frac} {Y : ℕ → ℚ} (h : ∀ k, (y k).good (Y k)) :
    ∀ (l : List ℕ), List.Forall₂ Frac.good (l.map y) (l.map Y) := by
  intro l
  induction l with
  | nil => constructor
  | cons a t iht => exact List.Forall₂.cons (h a) iht

theorem list_range_sum (f : ℕ → ℚ) (n : ℕ) :
    ((List.range n).map f).sum = ∑ k ∈ Finset.range n, f k := by
  induction n with
  | zero => simp
  | succ m ih =>
      rw [List.range_succ, Finset.sum_range_succ, List.map_append, List.sum_append, ih]
      simp

/-- Fraction mirror of `muSum`. -/
def muSumF (y : ℕ → Frac) : Frac := sumFL ((List.range 61).map y)

theorem muSumF_good {y : ℕ → Frac} {Y : ℕ → ℚ} (h : ∀ k, (y k).good (Y k)) :
    (muSumF y).good (muSum Y) := by
  unfold muSumF muSum
  exact Frac.good_congr (sumFL_good (forall₂_good_map h (List.range 61)))
    (list_range_sum Y 61)

/-- Fraction mirror of `xmuSum`. -/
def xmuSumF (y : ℕ → Frac) : Frac :=
  sumFL ((List.range 61).map (fun (k : ℕ) => Frac.mul ⟨k, 1⟩ (y k)))

theorem xmuSumF_good {y : ℕ → Frac} {Y : ℕ → ℚ} (h : ∀ k, (y k).good (Y k)) :
    (xmuSumF y).good (xmuSum Y) := by
  unfold xmuSumF xmuSum
  exact Frac.good_congr
    (sumFL_good (forall₂_good_map (fun (k : ℕ) => Frac.good_mul (Frac.good_nat k) (h k)) (List.range 61)))
    (list_range_sum (fun k => (k : ℚ) * Y k) 61)

/-- Fraction mirror of `centroid61`. -/
def centroidF (y : ℕ → Frac) : Frac := Frac.div (xmuSumF y) (muSumF y)

theorem centroidF_good {y : ℕ → Frac} {Y : ℕ → ℚ} (h : ∀ k, (y k).good (Y k)) :
    (centroidF y).good (centroid61 Y) := by
  unfold centroidF centroid61
  exact Frac.good_div (xmuSumF_good h) (muSumF_good h)

/-- Fraction mirror of `clip`. -/
def clipF (lo hi x : Frac) : Frac :=
  if Frac.blt hi x then hi else if Frac.blt x lo then lo else x

theorem clipF_good {lo hi x : Frac} {LO HI X : ℚ}
    (hlo : lo.good LO) (hhi : hi.good HI) (hx : x.good X) :
    (clipF lo hi x).good (clip LO HI X) := by
  unfold clipF clip
  by_cases h1 : HI < X
  · rw [if_pos ((Frac.good_blt_iff hhi hx).mpr h1), if_pos h1]; exact hhi
  · rw [if_neg (by rw [Frac.good_blt_iff hhi hx]; exact h1), if_neg h1]
    by_cases h2 : X < LO
    · rw [if_pos ((Frac.good_blt_iff hx hlo).mpr h2), if_pos h2]; exact hlo
    · rw [if_neg (by rw [Frac.good_blt_iff hx hlo]; exact h2), if_neg h2]; exact hx

/-- Fraction mirror of `get_fuzzy_green`. -/
def get_fuzzy_greenF (q u : Frac) : Option Frac :=
  let qc := clipF ⟨0, 1⟩ ⟨50, 1⟩ q
  let uc := clipF ⟨0, 1⟩ ⟨1, 1⟩ u
  let y : ℕ → Frac := fun k => aggregatedF qc uc ⟨k, 1⟩
  if Frac.beq (muSumF y) ⟨0, 1⟩ then none else some (centroidF y)

theorem get_fuzzy_greenF_agrees (q u : Frac) (Q U : ℚ)
    (hq : q.good Q) (hu : u.good U) :
    (get_fuzzy_greenF q u = none → get_fuzzy_green Q U = none) ∧
    (∀ f, get_fuzzy_greenF q u = some f → 0 < f.d ∧ get_fuzzy_green Q U = some f.toQ) := by
  have hqc : (clipF ⟨0, 1⟩ ⟨50, 1⟩ q).good (clip 0 50 Q) :=
    clipF_good (Frac.good_lit 0 (by norm_num)) (Frac.good_lit 50 (by norm_num)) hq
  have huc : (clipF ⟨0, 1⟩ ⟨1, 1⟩ u).good (clip 0 1 U) :=
    clipF_good (Frac.good_lit 0 (by norm_num)) (Frac.good_lit 1 (by norm_num)) hu
  have hy : ∀ (k : ℕ), (aggregatedF (clipF ⟨0, 1⟩ ⟨50, 1⟩ q) (clipF ⟨0, 1⟩ ⟨1, 1⟩ u) ⟨k, 1⟩).good
      (aggregated (clip 0 50 Q) (clip 0 1 U) (k : ℚ)) :=
    fun (k : ℕ) => aggregatedF_good hqc huc (Frac.good_nat k)
  have hmu := muSumF_good hy
  have hbeq := Frac.good_beq_iff hmu (Frac.good_lit 0 (by norm_num : ((0 : ℕ) : ℚ) = 0))
  unfold get_fuzzy_greenF get_fuzzy_green
  by_cases h : muSum (fun k => aggregated (clip 0 50 Q) (clip 0 1 U) (k : ℚ)) = 0
  · rw [if_pos (hbeq.mpr h), if_pos h]
    exact ⟨fun _ => rfl, fun f hf => by exact absurd hf (by simp)⟩
  · rw [if_neg (by rw [hbeq]; exact h), if_neg h]
    refine ⟨fun hf => by exact absurd hf (by simp), fun f hf => ?_⟩
    have hc := centroidF_good hy
    have hfc : f = centroidF (fun k => aggregatedF (clipF ⟨0, 1⟩ ⟨50, 1⟩ q) (clipF ⟨0, 1⟩ ⟨1, 1⟩ u) ⟨k, 1⟩) := by
      exact (Option.some.injEq _ _).mp hf.symm
    exact ⟨hfc ▸ hc.1, by rw [hfc, hc.2]⟩

theorem greenD_good {q u : Frac} {Q U : ℚ} (hq : q.good Q) (hu : u.good U) :
    ((get_fuzzy_greenF q u).getD ⟨0, 1⟩).good (greenD Q U) := by
  have h := get_fuzzy_greenF_agrees q u Q U hq hu
  cases hf : get_fuzzy_greenF q u with
  | none =>
      have hn : get_fuzzy_green Q U = none := h.1 hf
      simp only [greenD, hn, Option.getD_none, Option.getD_some]
      exact Frac.good_lit 0 (by norm_num)
  | some f =>
      have hsome := h.2 f hf
      simp only [greenD, hsome.2, Option.getD_some]
      exact ⟨hsome.1, rfl⟩

/-!
State-machine side.  The external simulator is modelled by the data the
program reads from it: the phase count of the single traffic light, the
phase the light is in when the session starts, and, for each simulated step
`t` counted from session start, the list of vehicle identifiers present
after that step (`traci.vehicle.getIDList()`).  The mutations the program
performs are recorded as an ordered list of signal commands.
-/

/-- Prefix test on character lists. -/
def headMatches (pat s : List Char) : Bool :=
  match pat, s with
  | [], _ => true
  | _ :: _, [] => false
  | p :: ps, c :: cs => p == c && headMatches ps cs

/-- Substring occurrence test on character lists, mirroring the Python
`pat in s` containment test. -/
def containsSub (pat s : List Char) : Bool :=
  match s with
  | [] => pat.isEmpty
  | _ :: cs => headMatches pat s || containsSub pat cs

/-- The Python membership test `pat in s` on strings. -/
def strContains (s pat : String) : Bool := containsSub pat.data s.data

/-- Emergency-category test used by the source: the substring `"emergency"`
occurs in the identifier (src/app.py lines 80 and 99). -/
def isEmergencyStr (s : String) : Bool := strContains s "emergency"

/-- The clearance poll of the waiting loop: the filtered list of emergency
vehicles is empty (src/app.py lines 80-82). -/
def noEmergencyLeft (ids : List String) : Bool :=
  (ids.filter isEmergencyStr).isEmpty

/-- A signal command sent to the simulator. -/
inductive TLCmd where
  | setPhaseDuration (d : ℚ)
  | setPhase (p : ℕ)
deriving DecidableEq, Repr

/-- Observable state of the traffic light: active phase index and the
duration set on it. -/
structure LightState where
  phase : ℕ
  duration : ℚ
deriving DecidableEq, Repr

/-- Effect of one signal command on the light. -/
def applyCmd (s : LightState) : TLCmd → LightState
  | TLCmd.setPhaseDuration d => { s with duration := d }
  | TLCmd.setPhase p => { s with phase := p }

/-- Effect of a command sequence on the light. -/
def applyCmds (s : LightState) (cs : List TLCmd) : LightState :=
  cs.foldl applyCmd s

/-- First simulated step at which the clearance loop may exit: the loop
(src/app.py lines 77-82) runs at least one iteration, and its first poll
happens after the second `simulationStep` of the session (the first is the
yellow-clearance step at line 71). -/
def clearanceExit (env : ℕ → List String)
    (hcl : ∃ t, 2 ≤ t ∧ noEmergencyLeft (env t) = true) : ℕ :=
  Nat.find hcl

/-- Embedding of the body of `perform_preemption` (src/app.py lines 59-84)
with the outcome of the green-time computation abstracted as `gres`: the
source computes the fuzzy duration first (line 64); an error there
propagates before any signal command is issued.  On success the source
captures the current phase (line 68), sets a 3-unit clearance duration
(line 70), steps and sleeps (wall-clock sleep has no simulator effect),
switches to phase `current_phase + 1` with the computed duration
(lines 73-74), loops simulated steps until no emergency vehicle remains
(lines 77-82), and finally restores phase `(current_phase + 2) mod
phaseCount` (line 84).  The result is the issued command list and the step
at which the clearance loop exited. -/
def preemption_body (n : ℕ) (s : LightState) (gres : Option ℚ)
    (env : ℕ → List String)
    (hcl : ∃ t, 2 ≤ t ∧ noEmergencyLeft (env t) = true) :
    Option (List TLCmd × ℕ) :=
  match gres with
  | none => none
  | some green_duration =>
      let current_phase := s.phase
      some ([TLCmd.setPhaseDuration 3,
             TLCmd.setPhase (current_phase + 1),
             TLCmd.setPhaseDuration green_duration,
             TLCmd.setPhase ((current_phase + 2) % n)],
            clearanceExit env hcl)

/-- Embedding of `perform_preemption` (src/app.py lines 59-84): the body
applied to the result of `get_fuzzy_green` (line 64). -/
def perform_preemption (n : ℕ) (s : LightState)
    (env : ℕ → List String) (queue_len urgency : ℚ)
    (hcl : ∃ t, 2 ≤ t ∧ noEmergencyLeft (env t) = true) :
    Option (List TLCmd × ℕ) :=
  preemption_body n s (get_fuzzy_green queue_len urgency) env hcl

/-- Commands issued by a session outcome (none were issued on an error). -/
def issuedCmds (r : Option (List TLCmd × ℕ)) : List TLCmd :=
  (r.map Prod.fst).getD []

/-- A preemption request as assembled by the detection scan:
traffic light, lane, measured queue length and urgency. -/
structure PreemptionRequest where
  tlId : String
  laneId : String
  queueLength : ℕ
  urgency : ℚ
deriving DecidableEq, Repr

/-- Data the scan reads about one vehicle (src/app.py lines 97-100). -/
structure VehicleCtx where
  veh_type : String
  lane_id : String
deriving DecidableEq, Repr

/-- Data the scan reads about the intersection in one tick
(src/app.py lines 101-107). -/
structure TickCtx where
  tl_id : String
  ryg_state : List Char
  laneIndex : String → ℕ
  laneCount : String → ℕ

/-- Embedding of the per-vehicle detection step of `run` (src/app.py lines
97-108): a preemption request is emitted exactly when the vehicle type
contains `"emergency"` and the signal-state character at the vehicle's lane
index is `'r'`; the request carries the lane's queue count and urgency 1.0. -/
def scan_vehicle (ctx : TickCtx) (v : VehicleCtx) : Option PreemptionRequest :=
  if isEmergencyStr v.veh_type then
    if ctx.ryg_state.get? (ctx.laneIndex v.lane_id) = some 'r' then
      some ⟨ctx.tl_id, v.lane_id, ctx.laneCount v.lane_id, 1⟩
    else none
  else none

theorem trimf_nonneg (a b c x : ℚ) : 0 ≤ trimf a b c x := by
  unfold trimf
  split_ifs with h1 h2 h3
  · norm_num
  · exact le_of_lt (div_pos (by linarith [h2.1]) (by linarith [h2.1, h2.2]))
  · exact le_of_lt (div_pos (by linarith [h3.2]) (by linarith [h3.1, h3.2]))
  · exact le_refl 0

theorem trimf_le_one (a b c x : ℚ) : trimf a b c x ≤ 1 := by
  unfold trimf
  split_ifs with h1 h2 h3
  · exact le_refl 1
  · rw [div_le_one (by linarith [h2.1, h2.2])]; linarith [h2.2]
  · rw [div_le_one (by linarith [h3.1, h3.2])]; linarith [h3.1]
  · norm_num

theorem agg_ge_1 (q u z : ℚ) : min (w1 q u) (green_short z) ≤ aggregated q u z := by
  unfold aggregated
  repeat first
  | exact le_max_left _ _
  | exact le_refl _
  | refine le_trans ?_ (le_max_right _ _)

theorem agg_ge_2 (q u z : ℚ) : min (w2 q u) (green_medium z) ≤ aggregated q u z := by
  unfold aggregated
  repeat first
  | exact le_max_left _ _
  | exact le_refl _
  | refine le_trans ?_ (le_max_right _ _)

theorem agg_ge_3 (q u z : ℚ) : min (w3 q u) (green_long z) ≤ aggregated q u z := by
  unfold aggregated
  repeat first
  | exact le_max_left _ _
  | exact le_refl _
  | refine le_trans ?_ (le_max_right _ _)

theorem agg_ge_4 (q u z : ℚ) : min (w4 q u) (green_medium z) ≤ aggregated q u z := by
  unfold aggregated
  repeat first
  | exact le_max_left _ _
  | exact le_refl _
  | refine le_trans ?_ (le_max_right _ _)

theorem agg_ge_5 (q u z : ℚ) : min (w5 q u) (green_long z) ≤ aggregated q u z := by
  unfold aggregated
  repeat first
  | exact le_max_left _ _
  | exact le_refl _
  | refine le_trans ?_ (le_max_right _ _)

theorem agg_ge_6 (q u z : ℚ) : min (w6 q u) (green_very_long z) ≤ aggregated q u z := by
  unfold aggregated
  repeat first
  | exact le_max_left _ _
  | exact le_refl _
  | refine le_trans ?_ (le_max_right _ _)

theorem agg_ge_7 (q u z : ℚ) : min (w7 q u) (green_long z) ≤ aggregated q u z := by
  unfold aggregated
  repeat first
  | exact le_max_left _ _
  | exact le_refl _
  | refine le_trans ?_ (le_max_right _ _)

theorem agg_ge_8 (q u z : ℚ) : min (w8 q u) (green_very_long z) ≤ aggregated q u z := by
  unfold aggregated
  repeat first
  | exact le_max_left _ _
  | exact le_refl _
  | refine le_trans ?_ (le_max_right _ _)

theorem agg_ge_9 (q u z : ℚ) : min (w9 q u) (green_very_long z) ≤ aggregated q u z := by
  unfold aggregated
  repeat first
  | exact le_max_left _ _
  | exact le_refl _
  | refine le_trans ?_ (le_max_right _ _)

theorem agg_nonneg (q u z : ℚ) : 0 ≤ aggregated q u z := by
  refine le_trans ?_ (agg_ge_1 q u z)
  exact le_min (le_min (trimf_nonneg _ _ _ _) (trimf_nonneg _ _ _ _)) (trimf_nonneg _ _ _ _)

theorem queue_cover {q : ℚ} (h0 : 0 ≤ q) (h50 : q ≤ 50) :
    0 < queue_low q ∨ 0 < queue_medium q ∨ 0 < queue_high q := by
  by_cases hq15 : q < 15
  · left
    unfold queue_low trimf
    split_ifs with h1 h2 h3
    · norm_num
    · linarith [h2.1, h2.2]
    · exact div_pos (by linarith [h3.2]) (by norm_num)
    · push_neg at h3
      have hq0 : 0 < q := lt_of_le_of_ne h0 (Ne.symm h1)
      linarith [h3 hq0]
  · by_cases hq40 : q < 40
    · right; left
      unfold queue_medium trimf
      split_ifs with h1 h2 h3
      · norm_num
      · exact div_pos (by linarith [h2.1]) (by norm_num)
      · exact div_pos (by linarith [h3.2]) (by norm_num)
      · push_neg at h2 h3
        have h25 : (25:ℚ) ≤ q := h2 (by linarith)
        have h25' : (25:ℚ) < q := lt_of_le_of_ne h25 (Ne.symm h1)
        linarith [h3 h25']
  
    · right; right
      unfold queue_high trimf
      split_ifs with h1 h2 h3
      · norm_num
      · exact div_pos (by linarith [h2.1]) (by norm_num)
      · linarith [h3.1, h3.2]
      · push_neg at h2
        have h50' : q < 50 := lt_of_le_of_ne h50 h1
        linarith [h2 (by linarith)]

theorem urgency_cover {u : ℚ} (h0 : 0 ≤ u) (h1 : u ≤ 1) :
    0 < urgency_low u ∨ 0 < urgency_medium u ∨ 0 < urgency_high u := by
  by_cases hu4 : u < 2/5
  · left
    unfold urgency_low trimf
    split_ifs with g1 g2 g3
    · norm_num
    · linarith [g2.1, g2.2]
    · exact div_pos (by linarith [g3.2]) (by norm_num)
    · push_neg at g3
      have hu0 : 0 < u := lt_of_le_of_ne h0 (Ne.symm g1)
      linarith [g3 hu0]
  · by_cases hu8 : u < 4/5
    · right; left
      unfold urgency_medium trimf
      split_ifs with g1 g2 g3
      · norm_num
      · exact div_pos (by linarith [g2.1]) (by norm_num)
      · exact div_pos (by linarith [g3.2]) (by norm_num)
      · push_neg at g2 g3
        have hm : (1:ℚ)/2 ≤ u := g2 (by linarith)
        have hm' : (1:ℚ)/2 < u := lt_of_le_of_ne hm (Ne.symm g1)
        linarith [g3 hm']
    · right; right
      unfold urgency_high trimf
      split_ifs with g1 g2 g3
      · norm_num
      · exact div_pos (by linarith [g2.1]) (by norm_num)
      · linarith [g2]
      · push_neg at g2
        have hu1 : u < 1 := lt_of_le_of_ne h1 g1
        linarith [g2 (by linarith)]

theorem muSum_agg_pos {q u : ℚ} (hq0 : 0 ≤ q) (hq50 : q ≤ 50) (hu0 : 0 ≤ u) (hu1 : u ≤ 1) :
    0 < muSum (fun k => aggregated q u (k : ℚ)) := by
  have hex : ∃ k : ℕ, k < 61 ∧ 0 < aggregated q u (k : ℚ) := by
    rcases queue_cover hq0 hq50 with hql | hqm | hqh <;>
      rcases urgency_cover hu0 hu1 with hul | hum | huh
    · exact ⟨10, by norm_num, lt_of_lt_of_le
        (lt_min (by unfold w1; exact lt_min hql hul) (by norm_num [green_short, trimf]))
        (agg_ge_1 q u _)⟩
    · exact ⟨25, by norm_num, lt_of_lt_of_le
        (lt_min (by unfold w2; exact lt_min hql hum) (by norm_num [green_medium, trimf]))
        (agg_ge_2 q u _)⟩
    · exact ⟨45, by norm_num, lt_of_lt_of_le
        (lt_min (by unfold w3; exact lt_min hql huh) (by norm_num [green_long, trimf]))
        (agg_ge_3 q u _)⟩
    · exact ⟨25, by norm_num, lt_of_lt_of_le
        (lt_min (by unfold w4; exact lt_min hqm hul) (by norm_num [green_medium, trimf]))
        (agg_ge_4 q u _)⟩
    · exact ⟨45, by norm_num, lt_of_lt_of_le
        (lt_min (by unfold w5; exact lt_min hqm hum) (by norm_num [green_long, trimf]))
        (agg_ge_5 q u _)⟩
    · exact ⟨60, by norm_num, lt_of_lt_of_le
        (lt_min (by unfold w6; exact lt_min hqm huh) (by norm_num [green_very_long, trimf]))
        (agg_ge_6 q u _)⟩
    · exact ⟨45, by norm_num, lt_of_lt_of_le
        (lt_min (by unfold w7; exact lt_min hqh hul) (by norm_num [green_long, trimf]))
        (agg_ge_7 q u _)⟩
    · exact ⟨60, by norm_num, lt_of_lt_of_le
        (lt_min (by unfold w8; exact lt_min hqh hum) (by norm_num [green_very_long, trimf]))
        (agg_ge_8 q u _)⟩
    · exact ⟨60, by norm_num, lt_of_lt_of_le
        (lt_min (by unfold w9; exact lt_min hqh huh) (by norm_num [green_very_long, trimf]))
        (agg_ge_9 q u _)⟩
  obtain ⟨k, hk, hpos⟩ := hex
  unfold muSum
  exact Finset.sum_pos' (fun i _ => agg_nonneg q u _) ⟨k, Finset.mem_range.mpr hk, hpos⟩

theorem xmuSum_nonneg {y : ℕ → ℚ} (h : ∀ k, 0 ≤ y k) : 0 ≤ xmuSum y :=
  Finset.sum_nonneg fun k _ => mul_nonneg (Nat.cast_nonneg k) (h k)

theorem xmuSum_le {y : ℕ → ℚ} (h : ∀ k, 0 ≤ y k) : xmuSum y ≤ 60 * muSum y := by
  unfold xmuSum muSum
  rw [Finset.mul_sum]
  apply Finset.sum_le_sum
  intro k hk
  have hk60 : (k : ℚ) ≤ 60 := by
    have := Nat.lt_succ_iff.mp (Finset.mem_range.mp hk)
    exact_mod_cast this
  exact mul_le_mul_of_nonneg_right hk60 (h k)

theorem centroid61_range {y : ℕ → ℚ} (hmu : 0 < muSum y) (h : ∀ k, 0 ≤ y k) :
    0 ≤ centroid61 y ∧ centroid61 y ≤ 60 := by
  constructor
  · exact div_nonneg (xmuSum_nonneg h) hmu.le
  · rw [centroid61, div_le_iff₀ hmu]
    exact le_trans (xmuSum_le h) (by ring_nf; exact le_refl _)

theorem clip_mem {lo hi : ℚ} (x : ℚ) (h : lo ≤ hi) :
    lo ≤ clip lo hi x ∧ clip lo hi x ≤ hi := by
  unfold clip
  split_ifs with h1 h2 <;> constructor <;> linarith

theorem clip_eq_self {lo hi x : ℚ} (h1 : lo ≤ x) (h2 : x ≤ hi) : clip lo hi x = x := by
  unfold clip
  split_ifs with g1 g2
  · linarith
  · linarith
  · rfl

/-- The engine succeeds on every pair of rational inputs: after clamping,
at least one rule fires, so the defuzzification denominator is positive and
`get_fuzzy_green` returns the centroid, a value in `[0, 60]`. -/
theorem engine_success (q u : ℚ) :
    get_fuzzy_green q u = some (greenValue q u) ∧
    0 ≤ greenValue q u ∧ greenValue q u ≤ 60 := by
  have hq := @clip_mem 0 50 q (by norm_num)
  have hu := @clip_mem 0 1 u (by norm_num)
  have hmu := muSum_agg_pos hq.1 hq.2 hu.1 hu.2
  have hrange := centroid61_range hmu (fun k => agg_nonneg _ _ _)
  refine ⟨?_, hrange.1, hrange.2⟩
  unfold get_fuzzy_green greenValue
  rw [if_neg hmu.ne']

theorem clip_idem {lo hi : ℚ} (x : ℚ) (h : lo ≤ hi) :
    clip lo hi (clip lo hi x) = clip lo hi x :=
  clip_eq_self (clip_mem x h).1 (clip_mem x h).2

/-- Environment reporting no vehicle at any simulated step. -/
def envEmpty : ℕ → List String := fun _ => []

theorem envEmpty_clear : ∃ t, 2 ≤ t ∧ noEmergencyLeft (envEmpty t) = true :=
  ⟨2, le_refl 2, rfl⟩

/-- Centroid of the single consequent of rule9 (`very_long`) clipped at
firing strength 1, over the discretized output universe. -/
def singleRuleCentroid : ℚ := centroid61 (fun k => min 1 (green_very_long (k : ℚ)))

/-- Fraction mirror of `singleRuleCentroid`. -/
def singleRuleCentroidF : Frac :=
  centroidF (fun k => Frac.minF ⟨1, 1⟩ (green_very_longF ⟨k, 1⟩))

theorem singleRuleCentroidF_good : singleRuleCentroidF.good singleRuleCentroid := by
  unfold singleRuleCentroidF singleRuleCentroid
  exact centroidF_good (fun k =>
    Frac.good_minF (Frac.good_lit 1 (by norm_num)) (green_very_longF_good (Frac.good_nat k)))

set_option maxRecDepth 1000000

set_option maxHeartbeats 8000000

/-- C1: for every starting phase `p` and phase count `n ≥ 3`, when a
preemption session runs to completion (the clearance wait ends), the traffic
light's active phase is `(p + 2) mod n`, where `p` is the phase captured
before any mutation at session start. -/
theorem claim_C1 (n : ℕ) (s : LightState) (env : ℕ → List String)
    (queue_len urgency : ℚ)
    (hcl : ∃ t, 2 ≤ t ∧ noEmergencyLeft (env t) = true)
    (hn : 3 ≤ n) (hp : s.phase < n) :
    ∃ cs t, perform_preemption n s env queue_len urgency hcl = some (cs, t) ∧
      (applyCmds s cs).phase = (s.phase + 2) % n := by
  have hg := (engine_success queue_len urgency).1
  unfold perform_preemption
  rw [hg]
  unfold preemption_body
  refine ⟨_, _, rfl, ?_⟩
  simp [applyCmds, applyCmd]

theorem claim_C1_witness :
    (3 ≤ 4 ∧ (1 : ℕ) < 4 ∧ ∃ t, 2 ≤ t ∧ noEmergencyLeft (envEmpty t) = true) ∧
    ∃ cs t, perform_preemption 4 ⟨1, 0⟩ envEmpty 30 1 envEmpty_clear = some (cs, t) ∧
      (applyCmds ⟨1, 0⟩ cs).phase = (1 + 2) % 4 :=
  ⟨⟨by norm_num, by norm_num, envEmpty_clear⟩,
   claim_C1 4 ⟨1, 0⟩ envEmpty 30 1 envEmpty_clear (by norm_num) (by norm_num)⟩

/-- C2: for every queue in `[0, 50]` and urgency in `[0, 1]`, the engine's
recommended green duration lies in `[0, 60]`. -/
theorem claim_C2 (q u : ℚ) (hq0 : 0 ≤ q) (hq50 : q ≤ 50) (hu0 : 0 ≤ u) (hu1 : u ≤ 1) :
    ∃ g, get_fuzzy_green q u = some g ∧ 0 ≤ g ∧ g ≤ 60 :=
  ⟨greenValue q u, (engine_success q u).1, (engine_success q u).2.1,
   (engine_success q u).2.2⟩

theorem claim_C2_witness :
    (0 ≤ (30 : ℚ) ∧ (30 : ℚ) ≤ 50 ∧ 0 ≤ (1/2 : ℚ) ∧ (1/2 : ℚ) ≤ 1) ∧
    ∃ g, get_fuzzy_green 30 (1/2) = some g ∧ 0 ≤ g ∧ g ≤ 60 :=
  ⟨⟨by norm_num, by norm_num, by norm_num, by norm_num⟩,
   claim_C2 30 (1/2) (by norm_num) (by norm_num) (by norm_num) (by norm_num)⟩

/-- C3 counterexample: with 4 phases and starting phase 3 (the last one),
the session commands phase index 4, which is not a valid phase index. -/
theorem claim_C3_counterexample :
    ∃ cs t, perform_preemption 4 ⟨3, 0⟩ envEmpty 30 1 envEmpty_clear = some (cs, t) ∧
      TLCmd.setPhase 4 ∈ cs ∧ ¬ (4 < 4) := by
  have hg := (engine_success 30 1).1
  unfold perform_preemption
  rw [hg]
  unfold preemption_body
  refine ⟨_, _, rfl, ?_, by norm_num⟩
  simp

/-- C3 (amended): every phase index a session commands is a valid index
provided the starting phase is not the last one (`originalPhase + 1 <
phaseCount`); for the last starting phase the `EMERGENCY_GREEN` command
targets index `phaseCount`, which is out of range. -/
theorem claim_C3 (n : ℕ) (s : LightState) (env : ℕ → List String)
    (queue_len urgency : ℚ)
    (hcl : ∃ t, 2 ≤ t ∧ noEmergencyLeft (env t) = true)
    (hp : s.phase + 1 < n) :
    ∃ cs t, perform_preemption n s env queue_len urgency hcl = some (cs, t) ∧
      ∀ p, TLCmd.setPhase p ∈ cs → p < n := by
  have hg := (engine_success queue_len urgency).1
  unfold perform_preemption
  rw [hg]
  unfold preemption_body
  refine ⟨_, _, rfl, ?_⟩
  intro p hmem
  simp only [List.mem_cons, List.not_mem_nil, or_false] at hmem
  rcases hmem with h | h | h | h
  · exact absurd h (by simp)
  · rw [TLCmd.setPhase.injEq] at h
    omega
  · exact absurd h (by simp)
  · rw [TLCmd.setPhase.injEq] at h
    subst h
    exact Nat.mod_lt _ (by omega)

theorem claim_C3_witness :
    ((1 : ℕ) + 1 < 4 ∧ ∃ t, 2 ≤ t ∧ noEmergencyLeft (envEmpty t) = true) ∧
    ∃ cs t, perform_preemption 4 ⟨1, 0⟩ envEmpty 12 1 envEmpty_clear = some (cs, t) ∧
      ∀ p, TLCmd.setPhase p ∈ cs → p < 4 :=
  ⟨⟨by norm_num, envEmpty_clear⟩,
   claim_C3 4 ⟨1, 0⟩ envEmpty 12 1 envEmpty_clear (by norm_num)⟩

/-- C4: the clearance wait ends exactly when no emergency-category vehicle
remains anywhere in the network: the exit step satisfies the global
clearance predicate, and every earlier poll (from the first one, at step 2)
still reports an emergency vehicle present. -/
theorem claim_C4 (n : ℕ) (s : LightState) (env : ℕ → List String)
    (queue_len urgency : ℚ)
    (hcl : ∃ t, 2 ≤ t ∧ noEmergencyLeft (env t) = true) :
    ∃ cs t, perform_preemption n s env queue_len urgency hcl = some (cs, t) ∧
      2 ≤ t ∧ noEmergencyLeft (env t) = true ∧
      ∀ t', 2 ≤ t' → t' < t → noEmergencyLeft (env t') = false := by
  have hg := (engine_success queue_len urgency).1
  unfold perform_preemption
  rw [hg]
  unfold preemption_body clearanceExit
  refine ⟨_, _, rfl, (Nat.find_spec hcl).1, (Nat.find_spec hcl).2, ?_⟩
  intro t' h2 hlt
  have hnot := Nat.find_min hcl hlt
  push_neg at hnot
  exact Bool.eq_false_iff.mpr (hnot h2)

theorem claim_C4_witness :
    (∃ t, 2 ≤ t ∧ noEmergencyLeft (envEmpty t) = true) ∧
    ∃ cs t, perform_preemption 4 ⟨0, 0⟩ envEmpty 5 1 envEmpty_clear = some (cs, t) ∧
      2 ≤ t ∧ noEmergencyLeft (envEmpty t) = true ∧
      ∀ t', 2 ≤ t' → t' < t → noEmergencyLeft (envEmpty t') = false :=
  ⟨envEmpty_clear, claim_C4 4 ⟨0, 0⟩ envEmpty 5 1 envEmpty_clear⟩

/-- C5: the degenerate zero-denominator case is unreachable — after
clamping, at least one rule fires for every input pair, so the engine never
reports the inference error; and the code has no fallback: an engine error
outcome aborts `perform_preemption` before any command, with no conservative
default duration applied (the exception would propagate and end the loop). -/
theorem claim_C5 :
    (∀ q u : ℚ, ∃ g, get_fuzzy_green q u = some g) ∧
    (∀ (n : ℕ) (s : LightState) (env : ℕ → List String)
      (hcl : ∃ t, 2 ≤ t ∧ noEmergencyLeft (env t) = true),
      preemption_body n s none env hcl = none) :=
  ⟨fun q u => ⟨greenValue q u, (engine_success q u).1⟩, fun _ _ _ _ => rfl⟩

theorem claim_C5_witness :
    (∃ t, 2 ≤ t ∧ noEmergencyLeft (envEmpty t) = true) ∧
    (∃ g, get_fuzzy_green 0 0 = some g) ∧
    preemption_body 4 ⟨0, 0⟩ none envEmpty envEmpty_clear = none :=
  ⟨envEmpty_clear, claim_C5.1 0 0, claim_C5.2 4 ⟨0, 0⟩ envEmpty envEmpty_clear⟩

/-- C7: inputs outside the declared universes are clamped to the nearest
boundary before fuzzification, so the engine agrees with itself on the
clamped inputs and never fails. -/
theorem claim_C7 (q u : ℚ) :
    get_fuzzy_green q u = get_fuzzy_green (clip 0 50 q) (clip 0 1 u) ∧
    ∃ g, get_fuzzy_green q u = some g := by
  constructor
  · unfold get_fuzzy_green
    rw [clip_idem q (by norm_num), clip_idem u (by norm_num)]
  · exact ⟨greenValue q u, (engine_success q u).1⟩

/-- C8: the detection scan emits a preemption request for a vehicle exactly
when the vehicle type is emergency-category (substring test) and the
signal-state character at its lane's index is red; the request carries the
lane's queue count and the constant urgency 1. -/
theorem claim_C8 (ctx : TickCtx) (v : VehicleCtx) (req : PreemptionRequest) :
    scan_vehicle ctx v = some req ↔
      (isEmergencyStr v.veh_type = true ∧
       ctx.ryg_state.get? (ctx.laneIndex v.lane_id) = some 'r' ∧
       req = ⟨ctx.tl_id, v.lane_id, ctx.laneCount v.lane_id, 1⟩) := by
  unfold scan_vehicle
  split_ifs with h1 h2
  · simp only [Option.some.injEq]
    constructor
    · intro h; exact ⟨h1, h2, h.symm⟩
    · intro h; exact h.2.2.symm
  · simp only [reduceCtorEq, false_iff, not_and]
    intro _ hr
    exact absurd hr h2
  · simp only [reduceCtorEq, false_iff, not_and]
    intro he
    exact absurd he h1

/-- C9: `evaluate(50, 1)` equals 57, which lies in `very_long`'s support
`[50, 60]`, in its upper region `[55, 58]`, and within 1 of the centroid of
the single firing rule's consequent clipped at strength 1. -/
theorem claim_C9 :
    get_fuzzy_green 50 1 = some 57 ∧
    (50 ≤ (57 : ℚ) ∧ (57 : ℚ) ≤ 60) ∧
    (55 ≤ (57 : ℚ) ∧ (57 : ℚ) ≤ 58) ∧
    |(57 : ℚ) - singleRuleCentroid| ≤ 1 := by
  have hsome := (engine_success 50 1).1
  have hgood : ((get_fuzzy_greenF ⟨50, 1⟩ ⟨1, 1⟩).getD ⟨0, 1⟩).good (greenD 50 1) :=
    greenD_good (Frac.good_lit 50 (by norm_num)) (Frac.good_lit 1 (by norm_num))
  have hbeq : Frac.beq ((get_fuzzy_greenF ⟨50, 1⟩ ⟨1, 1⟩).getD ⟨0, 1⟩) ⟨57, 1⟩ = true := by
    decide
  have hval : greenD 50 1 = 57 :=
    (Frac.good_beq_iff hgood (Frac.good_lit 57 (by norm_num))).mp hbeq
  have hgv : greenValue 50 1 = 57 := by
    rw [← hval]
    simp [greenD, hsome]
  have hsrbeq : Frac.beq singleRuleCentroidF ⟨57, 1⟩ = true := by decide
  have hsr : singleRuleCentroid = 57 :=
    (Frac.good_beq_iff singleRuleCentroidF_good (Frac.good_lit 57 (by norm_num))).mp hsrbeq
  refine ⟨?_, ⟨by norm_num, by norm_num⟩, ⟨by norm_num, by norm_num⟩, ?_⟩
  · rw [hsome, hgv]
  · rw [hsr]
    norm_num

/-- C10: if the fuzzy green-time computation fails at the start of a
preemption, no signal command has been issued: the session outcome is the
propagated error, the issued command list is empty, and the traffic light's
phase and duration are exactly as before the call (the duration computation
strictly precedes every signal mutation in the body). -/
theorem claim_C10 (n : ℕ) (s : LightState) (env : ℕ → List String)
    (hcl : ∃ t, 2 ≤ t ∧ noEmergencyLeft (env t) = true) :
    preemption_body n s none env hcl = none ∧
    issuedCmds (preemption_body n s none env hcl) = [] ∧
    applyCmds s (issuedCmds (preemption_body n s none env hcl)) = s :=
  ⟨rfl, rfl, rfl⟩

theorem claim_C10_witness :
    (∃ t, 2 ≤ t ∧ noEmergencyLeft (envEmpty t) = true) ∧
    (preemption_body 4 ⟨2, 7⟩ none envEmpty envEmpty_clear = none ∧
     issuedCmds (preemption_body 4 ⟨2, 7⟩ none envEmpty envEmpty_clear) = [] ∧
     applyCmds ⟨2, 7⟩ (issuedCmds (preemption_body 4 ⟨2, 7⟩ none envEmpty envEmpty_clear)) = ⟨2, 7⟩) :=
  ⟨envEmpty_clear, claim_C10 4 ⟨2, 7⟩ envEmpty envEmpty_clear⟩
